import Mathlib

/-!
Verification of the `vcf-triage-cli` repository: a shallow embedding of
`src/vcf_triage.py` (VCF record reader, filter engine, report writer) and
`src/igv_batch.py` (IGV locus batch generator), together with theorems that
settle the specification's claims against the source.

Modelling conventions:
* Python strings are Lean `String`s; operations on them are implemented
  on `List Char` via `String.data`, so that they are kernel-computable and
  amenable to induction.
* Python `int` is `Int` (arbitrary precision in both).
* Python `float` is modelled as an exact rational `ℚ`; rationals are built
  with the core constructors `mkRat` / `Rat.divInt` so that concrete values
  reduce in the kernel.  `round(x, 3)` is modelled as exact round-half-even
  at three decimals (`round3`).
* Python dicts (only string keys occur) are association lists built with a
  last-write-wins assignment `dset`; lookup is `List.lookup`.
* Fallible code is modelled with `Option` / `Except Unit`; an uncaught
  Python exception is `Except.error ()` (respectively a dedicated `err`
  constructor), and the deliberate "skip this malformed line" path is kept
  distinct from it.
* Python `int(s)` / `float(s)` are modelled on the canonical literal forms
  (optional sign, decimal digits, optional fraction part); the exotic forms
  Python additionally tolerates (underscores, exponents, `inf`/`nan`) do
  not occur in any input relevant to the claims.
-/

/-! ## Basic string and number utilities -/

/-- Numeric value of a decimal digit character. -/
def digitVal (c : Char) : Nat := c.toNat - 48

/-- Value of a string of decimal digits (the semantics of Python `int` on an
all-digit string). -/
def digitsToNat (cs : List Char) : Nat := cs.foldl (fun n c => 10 * n + digitVal c) 0

/-- Decimal digit character for a value below ten. -/
def digitChar : Nat → Char
  | 0 => '0' | 1 => '1' | 2 => '2' | 3 => '3' | 4 => '4'
  | 5 => '5' | 6 => '6' | 7 => '7' | 8 => '8' | 9 => '9'
  | _ => '?'

/-- Fuel-driven decimal digit list of a natural number (most significant
first); fuel `n + 1` is always enough. -/
def natDigitsAux : Nat → Nat → List Char
  | 0, _ => []
  | fuel + 1, n => if n < 10 then [digitChar n] else natDigitsAux fuel (n / 10) ++ [digitChar (n % 10)]

/-- Decimal digit list of a natural number, most significant digit first. -/
def natDigits (n : Nat) : List Char := natDigitsAux (n + 1) n

/-- Python `str` of an `int`: canonical decimal form, `-` sign for negatives. -/
def intToDecString (i : Int) : String :=
  String.mk (if i < 0 then '-' :: natDigits i.natAbs else natDigits i.toNat)

/-- Python `str` of a nonnegative `int`. -/
def natToDecString (n : Nat) : String := String.mk (natDigits n)

/-- Python `int(s)` on canonical integer literals: optional sign then decimal
digits; anything else raises, modelled as `none`. -/
def parseInt? (s : String) : Option Int :=
  match s.data with
  | [] => none
  | '-' :: cs => if cs ≠ [] ∧ cs.all Char.isDigit then some (-(digitsToNat cs : Int)) else none
  | '+' :: cs => if cs ≠ [] ∧ cs.all Char.isDigit then some ((digitsToNat cs : Int)) else none
  | cs => if cs.all Char.isDigit then some ((digitsToNat cs : Int)) else none

/-- Unsigned decimal literal (`"12"`, `"12.5"`, `".5"`, `"12."`) as an exact
rational. -/
def parseDecimalCore (cs : List Char) : Option ℚ :=
  let ip := cs.takeWhile Char.isDigit
  match cs.dropWhile Char.isDigit with
  | [] => if ip = [] then none else some ((digitsToNat ip : Nat) : ℚ)
  | '.' :: frac =>
    if frac.all Char.isDigit ∧ (ip ≠ [] ∨ frac ≠ []) then
      some (mkRat (digitsToNat ip * 10 ^ frac.length + digitsToNat frac) (10 ^ frac.length))
    else none
  | _ => none

/-- Negation of a rational written so that it reduces in the kernel. -/
def ratNeg (q : ℚ) : ℚ := Rat.divInt (-q.num) (q.den : Int)

/-- Python `float(s)` on decimal literals, as an exact rational; a parse
failure (Python `ValueError`) is `none`. -/
def parseRat? (s : String) : Option ℚ :=
  match s.data with
  | '-' :: cs => (parseDecimalCore cs).map ratNeg
  | '+' :: cs => parseDecimalCore cs
  | cs => parseDecimalCore cs

/-- Accumulator-based splitting of a character list into maximal runs of
non-whitespace characters. -/
def tokenizeAux : List Char → List Char → List (List Char)
  | [], acc => if acc = [] then [] else [acc.reverse]
  | c :: cs, acc =>
    if c.isWhitespace then
      if acc = [] then tokenizeAux cs [] else acc.reverse :: tokenizeAux cs []
    else tokenizeAux cs (c :: acc)

/-- Python `re.split(r"\s+", line.strip())` restricted to its effective
behaviour: the list of maximal whitespace-free runs of the line. -/
def wsTokens (s : String) : List String := (tokenizeAux s.data []).map String.mk

/-- Splitting a character list at every occurrence of a separator character
(the semantics of Python `s.split(sep)` for a one-character separator). -/
def splitOnChar (sep : Char) : List Char → List (List Char)
  | [] => [[]]
  | c :: cs =>
    if c = sep then [] :: splitOnChar sep cs
    else
      match splitOnChar sep cs with
      | [] => [[c]]
      | t :: ts => (c :: t) :: ts

/-- Python `s.split(sep)` for a one-character separator. -/
def strSplitOn (sep : Char) (s : String) : List String := (splitOnChar sep s.data).map String.mk

/-- Python `s.strip()`: remove leading and trailing whitespace. -/
def pyStrip (s : String) : String :=
  String.mk ((s.data.dropWhile Char.isWhitespace).reverse.dropWhile Char.isWhitespace).reverse

/-- Python `s.isdigit()`: nonempty and all characters decimal digits. -/
def pyIsdigit (s : String) : Bool := !s.data.isEmpty && s.data.all Char.isDigit

/-- Python `s.startswith(pre)`. -/
def strStartsWith (pre s : String) : Bool := pre.data.isPrefixOf s.data

/-- Python `sep.join(xs)`. -/
def strIntercalate (sep : String) : List String → String
  | [] => ""
  | [x] => x
  | x :: y :: xs => x ++ sep ++ strIntercalate sep (y :: xs)

/-! ## Dictionary model

Python dicts with string keys are modelled as association lists; `dset` is
dict assignment (replace the binding in place, or append a fresh one), so
lists built with `dset` have unique keys and `List.lookup` is dict lookup. -/

/-- Python dict assignment `m[k] = v`. -/
def dset {α : Type} : List (String × α) → String → α → List (String × α)
  | [], k, v => [(k, v)]
  | (k', v') :: rest, k, v => if k' = k then (k, v) :: rest else (k', v') :: dset rest k v

/-- Python `m.get(k)` (`None` when absent). -/
def dget {α : Type} (m : List (String × α)) (k : String) : Option α := List.lookup k m

/-- Python `m.get(k, 0)` for a counter dict. -/
def dgetN (m : List (String × Nat)) (k : String) : Nat := (dget m k).getD 0

/-- Python `m[k] = m.get(k, 0) + 1`. -/
def dincr (m : List (String × Nat)) (k : String) : List (String × Nat) := dset m k (dgetN m k + 1)

/-! ## Embedding of `src/vcf_triage.py` -/

/-- Source `parse_info`: parse the INFO field `key=value;key2;...` into a dict;
a field without `=` maps to the string `"True"`, empty fields are skipped,
`split("=", 1)` keeps everything after the first `=` as the value. -/
def parse_info (s : String) : List (String × String) :=
  (strSplitOn ';' s).foldl
    (fun out field =>
      if field = "" then out
      else if field.data.contains '=' then
        dset out (String.mk (field.data.takeWhile (fun c => c ≠ '=')))
          (String.mk ((field.data.dropWhile (fun c => c ≠ '=')).tail))
      else dset out field "True")
    []

/-- Source `parse_ann`: parse the first VEP ANN record out of the INFO dict.
Returns `(gene, consequence, hgvsc, hgvsp)`, each defaulting to `""`. -/
def parse_ann (info : List (String × String)) : String × String × String × String :=
  let ann := (dget info "ANN").getD ""
  if ann = "" then ("", "", "", "")
  else
    let first := (strSplitOn ',' ann).headD ""
    let parts := strSplitOn '|' first
    (parts.getD 3 "", parts.getD 1 "", parts.getD 9 "", parts.getD 10 "")

/-- Python `round` to an integer: round-half-to-even on an exact rational
(CPython's `round` on floats is half-even; the float is modelled exactly). -/
def roundHalfEven (q : ℚ) : Int :=
  let f := q.floor
  let rnum := q.num - f * (q.den : Int)
  if 2 * rnum < (q.den : Int) then f
  else if (q.den : Int) < 2 * rnum then f + 1
  else if f % 2 = 0 then f else f + 1

/-- Python `round(q, 3)`; the scaling `q * 1000` is performed on the
numerator so that the whole computation reduces in the kernel. -/
def round3 (q : ℚ) : ℚ :=
  Rat.divInt (roundHalfEven (Rat.divInt (q.num * 1000) (q.den : Int))) 1000

/-- Source `allele_balance`: compute `AB = alt/(ref+alt)` from the `AD` entry
of the per-sample FORMAT dict, rounded to three decimals; any parse failure,
a missing or empty `AD`, a lone component, or a zero denominator gives
`none` (the Python code catches every exception and returns `None`). -/
def allele_balance (fmt : List (String × String)) : Option ℚ :=
  match dget fmt "AD" with
  | none => none
  | some ad =>
    if ad = "" then none
    else
      match (strSplitOn ',' ad).take 2 with
      | [a, b] =>
        match parseInt? a, parseInt? b with
        | some r, some t => if r + t = 0 then none else some (round3 (Rat.divInt t (r + t)))
        | _, _ => none
      | _ => none

/-- A parsed variant record, the dict yielded by `simple_vcf_iter`. -/
structure VRec where
  chrom : String
  pos : Int
  ref : String
  alt : List String
  qual : Option ℚ
  filt : String
  info : List (String × String)
  fmt : List (String × String)
deriving DecidableEq

/-- Outcome of `simple_vcf_iter` on one input line: the line is silently
skipped, yields a record, or raises (`int`/`float` parse failure). -/
inductive LineResult where
  | skip : LineResult
  | err : LineResult
  | record : VRec → LineResult
deriving DecidableEq

/-- Python `{k: (vals[i] if i < len(vals) else "") for i, k in enumerate(keys)}`. -/
def buildFmtMap (keys vals : List String) : List (String × String) :=
  keys.enum.foldl (fun m ik => dset m ik.2 (vals.getD ik.1 "")) []

/-- Per-line behaviour of source `simple_vcf_iter`: `##` metadata lines, the
`#CHROM` header, blank lines and lines with fewer than 8 whitespace tokens
are skipped; otherwise the record is built, with `int(pos)` and
`float(qual)` failures raising. -/
def readLine (line : String) : LineResult :=
  if strStartsWith "##" line then .skip
  else if strStartsWith "#CHROM" line then .skip
  else if pyStrip line = "" then .skip
  else
    let fields := wsTokens line
    if fields.length < 8 then .skip
    else
      let fmtS := fields.getD 8 ""
      let sampleS := fields.getD 9 ""
      let fmtMap :=
        if fmtS ≠ "" ∧ sampleS ≠ "" then
          buildFmtMap (strSplitOn ':' fmtS) (strSplitOn ':' sampleS)
        else []
      match parseInt? (fields.getD 1 "") with
      | none => .err
      | some pos =>
        let qualS := fields.getD 5 ""
        let qualE : Except Unit (Option ℚ) :=
          if qualS = "." ∨ qualS = "" then .ok none
          else match parseRat? qualS with
            | some q => .ok (some q)
            | none => .error ()
        match qualE with
        | .error _ => .err
        | .ok qual =>
          let fltS := fields.getD 6 ""
          .record
            { chrom := fields.getD 0 ""
              pos := pos
              ref := fields.getD 3 ""
              alt := strSplitOn ',' (fields.getD 4 "")
              qual := qual
              filt := if fltS = "." then "PASS" else fltS
              info := parse_info (fields.getD 7 "")
              fmt := fmtMap }

/-- Source `simple_vcf_iter` over a whole file (given as its list of lines):
the list of yielded records, or an error if any line raises. -/
def vcfRead : List String → Except Unit (List VRec)
  | [] => .ok []
  | l :: ls =>
    match readLine l with
    | .skip => vcfRead ls
    | .err => .error ()
    | .record v => (vcfRead ls).map (v :: ·)

/-- The configuration of one `triage` run (the keyword arguments of the
source function); the gene allowlist is a list used only through
membership, matching the Python set. -/
structure Config where
  min_dp : Int
  min_qual : ℚ
  max_af : ℚ
  include_nonpass : Bool
  genes_set : Option (List String)
deriving DecidableEq

/-- Which predicate of the filter chain dropped a record. -/
inductive Rule where
  | nonpassR | qualR | afR | dpR | abR | geneR
deriving DecidableEq

/-- Data carried by a record that survived every filter, as used to emit its
output rows. -/
structure Kept where
  v : VRec
  af : Option ℚ
  gt : String
  dp : Int
  ab : Option ℚ
  gene : String
  consequence : String
  hgvsc : String
  hgvsp : String
deriving DecidableEq

/-- Outcome of the `triage` loop body on one record: an uncaught exception,
a drop by a named rule, or keep. -/
inductive StepOut where
  | err : StepOut
  | drop : Rule → StepOut
  | keep : Kept → StepOut
deriving DecidableEq

/-- Source line 143: `af = float(af_raw) if af_raw not in (None, "") else None`;
the `float` call is outside any `try`, so a parse failure raises. -/
def afExc (info : List (String × String)) : Except Unit (Option ℚ) :=
  match dget info "AF" with
  | none => .ok none
  | some s =>
    if s = "" then .ok none
    else match parseRat? s with
      | some q => .ok (some q)
      | none => .error ()

/-- Source line 148: `dp = int(fmt.get("DP", 0) or 0)`; an absent or empty
`DP` gives `0`, a nonempty non-integer value raises. -/
def dpExc (fmt : List (String × String)) : Except Unit Int :=
  match dget fmt "DP" with
  | none => .ok 0
  | some s =>
    if s = "" then .ok 0
    else match parseInt? s with
      | some n => .ok n
      | none => .error ()

/-- Gene-allowlist predicate and record finalisation (source lines 157-162). -/
def stepGene (cfg : Config) (v : VRec) (af : Option ℚ) (dp : Int) (gt : String)
    (ab : Option ℚ) : StepOut :=
  let ann := parse_ann v.info
  let gene := ann.1
  match cfg.genes_set with
  | some gs =>
    if gene = "" ∨ ¬ gs.contains gene then .drop .geneR
    else .keep ⟨v, af, gt, dp, ab, gene, ann.2.1, ann.2.2.1, ann.2.2.2⟩
  | none => .keep ⟨v, af, gt, dp, ab, gene, ann.2.1, ann.2.2.1, ann.2.2.2⟩

/-- Heterozygote allele-balance predicate (source lines 152-155): drop when
the genotype is `0/1` or `1/0`, the balance is computable, and it lies
strictly outside `[0.3, 0.7]`. -/
def stepAb (cfg : Config) (v : VRec) (af : Option ℚ) (dp : Int) : StepOut :=
  let gt := (dget v.fmt "GT").getD ""
  let ab := allele_balance v.fmt
  if (gt = "0/1" ∨ gt = "1/0") ∧ ab.any (fun b => ¬ (mkRat 3 10 ≤ b ∧ b ≤ mkRat 7 10)) then
    .drop .abR
  else stepGene cfg v af dp gt ab

/-- Depth predicate (source lines 148-150). -/
def stepDp (cfg : Config) (v : VRec) (af : Option ℚ) : StepOut :=
  match dpExc v.fmt with
  | .error _ => .err
  | .ok dp => if dp < cfg.min_dp then .drop .dpR else stepAb cfg v af dp

/-- Population-frequency predicate (source lines 142-145). -/
def stepAf (cfg : Config) (v : VRec) : StepOut :=
  match afExc v.info with
  | .error _ => .err
  | .ok af =>
    if af.any (fun a => cfg.max_af ≤ a) then .drop .afR else stepDp cfg v af

/-- The whole filter chain of the `triage` loop body (source lines 133-162). -/
def triageStep (cfg : Config) (v : VRec) : StepOut :=
  if cfg.include_nonpass = false ∧ v.filt ≠ "PASS" then .drop .nonpassR
  else if v.qual.getD 0 < cfg.min_qual then .drop .qualR
  else stepAf cfg v

/-- One data row of the output CSV (source lines 164-181), with the writer's
typed values; `outRowDict` below renders it the way `csv.writer` +
`csv.DictReader` round-trip it. -/
structure OutRow where
  chrom : String
  pos : Int
  ref : String
  alt : String
  gene : String
  consequence : String
  hgvs_c : String
  hgvs_p : String
  af : Option ℚ
  gt : String
  dp : Int
  ab : Option ℚ
  filters : String
deriving DecidableEq

/-- Row expansion of a kept record: one output row per alternate allele,
in allele order (source line 164). -/
def rowsOf (k : Kept) : List OutRow :=
  k.v.alt.map (fun a =>
    { chrom := k.v.chrom, pos := k.v.pos, ref := k.v.ref, alt := a, gene := k.gene
      consequence := k.consequence, hgvs_c := k.hgvsc, hgvs_p := k.hgvsp, af := k.af
      gt := k.gt, dp := k.dp, ab := k.ab, filters := k.v.filt })

/-- All output rows of a run over a list of records; `Except.error` when some
record raises (which aborts the Python run). -/
def triageRows (cfg : Config) : List VRec → Except Unit (List OutRow)
  | [] => .ok []
  | v :: vs =>
    match triageStep cfg v with
    | .err => .error ()
    | .drop _ => triageRows cfg vs
    | .keep k => (triageRows cfg vs).map (rowsOf k ++ ·)

/-- The `by_consequence` counter: incremented once per emitted row whenever
the row's consequence is nonempty (source lines 183-184). -/
def byConsOf (rows : List OutRow) : List (String × Nat) :=
  rows.foldl (fun m r => if r.consequence = "" then m else dincr m r.consequence) []

/-- The whole `triage` run on a file given as its list of lines: the emitted
rows, the `kept` counter (one increment per row) and the consequence
counter; `Except.error` when the run raises. -/
def triageRun (cfg : Config) (lines : List String) :
    Except Unit (List OutRow × Nat × List (String × Nat)) :=
  match vcfRead lines with
  | .error e => .error e
  | .ok recs =>
    match triageRows cfg recs with
    | .error e => .error e
    | .ok rows => .ok (rows, rows.length, byConsOf rows)

/-! ## Report Writer rendering and summary -/

/-- Rendering of an optional numeric CSV cell: `""` when absent.  The exact
digit rendering of a present rational is irrelevant to every claim (the
batch generator never reads these columns), so it is left to an explicit
numerator/denominator form. -/
def optRatStr (q : Option ℚ) : String :=
  match q with
  | some q => intToDecString q.num ++ "/" ++ natToDecString q.den
  | none => ""

/-- The CSV row as `csv.DictReader` recovers it downstream: the fixed
13-column header mapped to the stringified cells (source lines 124,
164-181). -/
def outRowDict (r : OutRow) : List (String × String) :=
  [("chrom", r.chrom), ("pos", intToDecString r.pos), ("ref", r.ref), ("alt", r.alt),
   ("gene", r.gene), ("consequence", r.consequence), ("hgvs_c", r.hgvs_c),
   ("hgvs_p", r.hgvs_p), ("af", optRatStr r.af), ("gt", r.gt),
   ("dp", intToDecString r.dp), ("ab", optRatStr r.ab), ("filters", r.filters)]

/-- Lexicographic comparison of character lists by code point — the
semantics of Python `<` on strings. -/
def charListLt : List Char → List Char → Bool
  | [], [] => false
  | [], _ :: _ => true
  | _ :: _, [] => false
  | a :: as, b :: bs =>
    if a.toNat < b.toNat then true
    else if b.toNat < a.toNat then false
    else charListLt as bs

/-- Python `a < b` on strings (lexicographic by code point). -/
def strLt (a b : String) : Prop := charListLt a.data b.data = true

instance : DecidableRel strLt := fun a b => by
  unfold strLt; infer_instance

/-- The sort order of the summary's consequence lines: Python
`sorted(items, key=lambda x: (-x[1], x[0]))`, i.e. ascending lexicographic
comparison of `(-count, term)` pairs. -/
def consOrder (a b : String × Nat) : Prop :=
  b.2 < a.2 ∨ (a.2 = b.2 ∧ ¬ strLt b.1 a.1)

instance : DecidableRel consOrder := fun a b => by
  unfold consOrder; infer_instance

/-- The sorted consequence counter (source line 191); Python's stable
`sorted` is modelled by insertion sort, which agrees with it because
`consOrder` is total and transitive. -/
def summarySort (items : List (String × Nat)) : List (String × Nat) :=
  List.insertionSort consOrder items

/-- One summary line `"  <term>: <count>"` (source line 192, without the
trailing newline). -/
def summaryLine (kv : String × Nat) : String :=
  "  " ++ kv.1 ++ ": " ++ natToDecString kv.2

/-- The consequence block of the summary file, one line per counter entry in
sorted order. -/
def summaryConsLines (items : List (String × Nat)) : List String :=
  (summarySort items).map summaryLine

/-! ## Embedding of `src/igv_batch.py` -/

/-- Python truthiness chain `(a or b)` for an optional string `a` and a
default `b`: `None` and `""` fall through. -/
def pyOrStr (a : Option String) (b : String) : String :=
  match a with
  | some s => if s = "" then b else s
  | none => b

/-- Source `sanitize_filename`: replace filesystem-unsafe characters by `_`
and truncate to 80 characters. -/
def sanitize_filename (s : String) : String :=
  let bad : List Char := ['<', '>', ':', '"', '/', '\\', '|', '?', '*', ' ', '\t']
  let out := String.mk (s.data.map (fun ch => if ch ∈ bad then '_' else ch))
  if out.data.length > 80 then String.mk (out.data.take 80) else out

/-- The options of one `make_igv_batch` call (its keyword arguments). -/
structure IgvCfg where
  genome : String
  bam : Option String
  bam_col : Option String
  flank : Int
  snapshot_dir : Option String
  snapshot_prefix : Option String
deriving DecidableEq

/-- A CSV row as `csv.DictReader` yields it. -/
abbrev RowD := List (String × String)

/-- Source line 66: `(r.get("chrom") or r.get("CHROM") or "").strip()`. -/
def igvRowChrom (r : RowD) : String :=
  pyStrip (pyOrStr (dget r "chrom") (pyOrStr (dget r "CHROM") ""))

/-- Source line 67: `(r.get("pos") or r.get("POS") or "").strip()`. -/
def igvRowPosStr (r : RowD) : String :=
  pyStrip (pyOrStr (dget r "pos") (pyOrStr (dget r "POS") ""))

/-- The loop body of `make_igv_batch` (source lines 65-100) on one row: the
lines it appends and its contribution to the written-loci count.  A row
with empty chromosome or non-digit position is silently skipped. -/
def igvRowLines (cfg : IgvCfg) (r : RowD) : List String × Nat :=
  let chrom := igvRowChrom r
  let posStr := igvRowPosStr r
  if chrom = "" ∨ ¬ pyIsdigit posStr then ([], 0)
  else
    let pos : Int := (digitsToNat posStr.data : Int)
    let start := max 1 (pos - cfg.flank)
    let stop := pos + cfg.flank
    let loadLines : List String :=
      match cfg.bam_col with
      | some col =>
        let p := pyStrip (pyOrStr (dget r col) "")
        if p = "" then [] else ["load " ++ p]
      | none => []
    let gotoLine := "goto " ++ (chrom ++ ":" ++ intToDecString start ++ "-" ++ intToDecString stop)
    let snapLines : List String :=
      match cfg.snapshot_dir with
      | none => []
      | some _ =>
        let gene := pyStrip (pyOrStr (dget r "gene") (pyOrStr (dget r "GENE") ""))
        let cons := pyStrip (pyOrStr (dget r "consequence")
          (pyOrStr (dget r "Consequences") (pyOrStr (dget r "CONSEQUENCE") "")))
        let labelParts := [chrom, intToDecString pos]
          ++ (if gene = "" then [] else [gene])
          ++ (if cons = "" then [] else [String.mk (((strSplitOn '&' cons).headD "").data.take 24)])
        let base := strIntercalate "_" labelParts
        let base :=
          match cfg.snapshot_prefix with
          | some p => if p = "" then base else p ++ ("_" ++ base)
          | none => base
        ["snapshot " ++ (sanitize_filename base ++ ".png")]
    (loadLines ++ gotoLine :: snapLines, 1)

/-- Source `make_igv_batch` on an already-read row list: the accumulated
`out_lines` at the moment of `write_text`, and the returned loci count.
With no rows at all the function returns early after the session-reset and
genome lines (source lines 52-54), before the single-alignment load line
is ever appended. -/
def make_igv_batch (cfg : IgvCfg) (rows : List RowD) : List String × Nat :=
  let header := ["new", "genome " ++ cfg.genome]
  if rows = [] then (header, 0)
  else
    let header := header ++
      (match cfg.bam with
       | some b => if b = "" then [] else ["load " ++ b]
       | none => [])
    let header := header ++
      (match cfg.snapshot_dir with
       | some d => if d = "" then [] else ["snapshotDirectory " ++ d]
       | none => [])
    (header ++ (rows.map (fun r => (igvRowLines cfg r).1)).flatten,
     (rows.map (fun r => (igvRowLines cfg r).2)).sum)

/-- The text `make_igv_batch` writes to the output path:
`"\n".join(out_lines) + "\n"`, written unconditionally on both exit paths
(source lines 53 and 107). -/
def igvText (lines : List String) : String := strIntercalate "\n" lines ++ "\n"

/-- Recogniser for navigation commands among the generated lines (the lines
starting with `goto `). -/
def lineIsGoto (s : String) : Bool :=
  match s.data with
  | 'g' :: 'o' :: 't' :: 'o' :: ' ' :: _ => true
  | _ => false

/-- Recogniser for load commands among the generated lines (the lines
starting with `load `). -/
def lineIsLoad (s : String) : Bool :=
  match s.data with
  | 'l' :: 'o' :: 'a' :: 'd' :: ' ' :: _ => true
  | _ => false

deriving instance DecidableEq for Except

/-! ## Structural lemmas about the filter chain -/

lemma stepGene_drop_rule {cfg : Config} {v : VRec} {af : Option ℚ} {dp : Int} {gt : String}
    {ab : Option ℚ} {r : Rule} (h : stepGene cfg v af dp gt ab = .drop r) : r = .geneR := by
  simp only [stepGene] at h
  rcases hg : cfg.genes_set with _ | gs <;> simp only [hg] at h
  · exact absurd h (by simp)
  · split at h
    · exact (StepOut.drop.inj h).symm
    · exact absurd h (by simp)

lemma stepAb_drop_rule {cfg : Config} {v : VRec} {af : Option ℚ} {dp : Int} {r : Rule}
    (h : stepAb cfg v af dp = .drop r) : r = .abR ∨ r = .geneR := by
  simp only [stepAb] at h
  split at h
  · exact Or.inl (StepOut.drop.inj h).symm
  · exact Or.inr (stepGene_drop_rule h)

lemma stepDp_drop_rule {cfg : Config} {v : VRec} {af : Option ℚ} {r : Rule}
    (h : stepDp cfg v af = .drop r) : r = .dpR ∨ r = .abR ∨ r = .geneR := by
  simp only [stepDp] at h
  split at h
  · exact absurd h (by simp)
  · split at h
    · exact Or.inl (StepOut.drop.inj h).symm
    · exact Or.inr (stepAb_drop_rule h)

lemma stepAf_drop_rule {cfg : Config} {v : VRec} {r : Rule}
    (h : stepAf cfg v = .drop r) : r = .afR ∨ r = .dpR ∨ r = .abR ∨ r = .geneR := by
  simp only [stepAf] at h
  split at h
  · exact absurd h (by simp)
  · split at h
    · exact Or.inl (StepOut.drop.inj h).symm
    · exact Or.inr (stepDp_drop_rule h)

/-! ## Claim C6: quality rule -/

/-- C6: for every record passing the non-PASS rule and every configured
minimum quality, the record is dropped by the quality rule exactly when its
quality is strictly less than the minimum, where an absent quality score is
treated as zero (the `Option.getD 0`); in particular a record whose quality
equals the minimum is not dropped by the quality rule. -/
theorem quality_rule_drops_iff_below_min (cfg : Config) (v : VRec)
    (hp : cfg.include_nonpass = true ∨ v.filt = "PASS") :
    (triageStep cfg v = .drop .qualR ↔ v.qual.getD 0 < cfg.min_qual) ∧
    (v.qual.getD 0 = cfg.min_qual → triageStep cfg v ≠ .drop .qualR) := by
  have hnp : ¬ (cfg.include_nonpass = false ∧ v.filt ≠ "PASS") := by
    rcases hp with h | h <;> simp [h]
  have main : triageStep cfg v = .drop .qualR ↔ v.qual.getD 0 < cfg.min_qual := by
    constructor
    · intro h
      simp only [triageStep, if_neg hnp] at h
      by_cases hq : v.qual.getD 0 < cfg.min_qual
      · exact hq
      · rw [if_neg hq] at h
        rcases stepAf_drop_rule h with h1 | h1 | h1 | h1 <;> cases h1
    · intro hq
      simp only [triageStep, if_neg hnp, if_pos hq]
  refine ⟨main, fun he h => ?_⟩
  rw [main] at h
  rw [he] at h
  exact lt_irrefl _ h

/-- Witness for C6: a concrete `PASS` record with quality 10 under minimum 30
is dropped by the quality rule. -/
theorem quality_rule_drops_iff_below_min_witness :
    triageStep ⟨10, 30, 1, false, none⟩
      { chrom := "c", pos := 1, ref := "A", alt := ["T"], qual := some 10,
        filt := "PASS", info := [], fmt := [] } = .drop .qualR :=
  ((quality_rule_drops_iff_below_min ⟨10, 30, 1, false, none⟩
    { chrom := "c", pos := 1, ref := "A", alt := ["T"], qual := some 10,
      filt := "PASS", info := [], fmt := [] } (Or.inr rfl)).1).mpr (by decide)

/-! ## Claim C1: population-frequency rule and AF parse failure -/

/-- Counterexample to C1 as stated: a record whose INFO `AF` value fails
numeric parsing does not degrade to "frequency absent" — the uncaught
`float("abc")` raises and the whole run aborts. -/
theorem af_parse_failure_counterexample :
    parseRat? "abc" = none ∧
    triageStep ⟨10, 30, mkRat 1 100, false, none⟩
      { chrom := "chr1", pos := 1000, ref := "A", alt := ["T"], qual := some 100,
        filt := "PASS", info := parse_info "AF=abc", fmt := [("GT", "0/1"), ("DP", "50")] } = .err ∧
    triageRun ⟨10, 30, mkRat 1 100, false, none⟩
      ["chr1 1000 . A T 100 PASS AF=abc GT:DP 0/1:50"] = .error () := by
  refine ⟨by decide, by decide, by decide⟩

/-- C1 (amended): when `AF` is present, nonempty and parses, the record is
dropped by the frequency rule exactly when the parsed frequency is `≥` the
configured maximum; an absent (or empty) `AF` never drops the record by
that rule; but an `AF` that fails numeric parsing raises (aborting the
run) instead of being treated as absent. -/
theorem af_rule_amended (cfg : Config) (v : VRec)
    (hp : cfg.include_nonpass = true ∨ v.filt = "PASS")
    (hq : ¬ v.qual.getD 0 < cfg.min_qual) :
    ((dget v.info "AF" = none ∨ dget v.info "AF" = some "") → triageStep cfg v ≠ .drop .afR) ∧
    (∀ s q, dget v.info "AF" = some s → s ≠ "" → parseRat? s = some q →
      (triageStep cfg v = .drop .afR ↔ cfg.max_af ≤ q)) ∧
    (∀ s, dget v.info "AF" = some s → s ≠ "" → parseRat? s = none →
      triageStep cfg v = .err) := by
  have hnp : ¬ (cfg.include_nonpass = false ∧ v.filt ≠ "PASS") := by
    rcases hp with h | h <;> simp [h]
  have hstep : triageStep cfg v = stepAf cfg v := by
    simp only [triageStep, if_neg hnp, if_neg hq]
  refine ⟨?_, ?_, ?_⟩
  · intro habs
    have hok : afExc v.info = .ok none := by
      rcases habs with h | h <;> simp [afExc, h]
    rw [hstep]
    simp only [stepAf, hok]
    rw [if_neg (by simp)]
    intro hdrop
    rcases stepDp_drop_rule hdrop with h1 | h1 | h1 <;> cases h1
  · intro s q hs hne hpq
    have hok : afExc v.info = .ok (some q) := by
      simp [afExc, hs, hne, hpq]
    rw [hstep]
    simp only [stepAf, hok]
    constructor
    · intro hdrop
      by_cases hc : cfg.max_af ≤ q
      · exact hc
      · rw [if_neg (by simp [hc])] at hdrop
        rcases stepDp_drop_rule hdrop with h1 | h1 | h1 <;> cases h1
    · intro hc
      rw [if_pos (by simp [hc])]
  · intro s hs hne hpf
    have herr : afExc v.info = .error () := by
      simp [afExc, hs, hne, hpf]
    rw [hstep]
    simp only [stepAf, herr]

/-- Witness for the amended C1: a concrete record without any `AF` key is not
dropped by the frequency rule. -/
theorem af_rule_amended_witness :
    triageStep ⟨10, 30, 1, false, none⟩
      { chrom := "c", pos := 1, ref := "A", alt := ["T"], qual := some 100,
        filt := "PASS", info := [], fmt := [] } ≠ .drop .afR :=
  (af_rule_amended ⟨10, 30, 1, false, none⟩
    { chrom := "c", pos := 1, ref := "A", alt := ["T"], qual := some 100,
      filt := "PASS", info := [], fmt := [] } (Or.inr rfl) (by decide)).1 (Or.inl rfl)

/-! ## Claim C4: heterozygote allele-balance rule -/

/-- C4: a record reaching the allele-balance rule is dropped by it exactly
when the genotype is one of the two canonical unphased heterozygous
orderings and the computed balance lies strictly outside `[0.3, 0.7]`; a
balance of exactly `0.3` or `0.7` and a non-computable balance never drop.
The final conjunct states how the balance is computed from the `AD` field:
`round(alt/(ref+alt), 3)` on the first two comma-separated integers, with a
zero denominator or a parse failure giving "not computable". -/
theorem allele_balance_rule (cfg : Config) (v : VRec)
    (hp : cfg.include_nonpass = true ∨ v.filt = "PASS")
    (hq : ¬ v.qual.getD 0 < cfg.min_qual)
    (af : Option ℚ) (haf : afExc v.info = .ok af)
    (hafkeep : ∀ a, af = some a → ¬ cfg.max_af ≤ a)
    (dp : Int) (hdp : dpExc v.fmt = .ok dp)
    (hdpkeep : ¬ dp < cfg.min_dp) :
    (triageStep cfg v = .drop .abR ↔
      (((dget v.fmt "GT").getD "" = "0/1" ∨ (dget v.fmt "GT").getD "" = "1/0") ∧
        ∃ b, allele_balance v.fmt = some b ∧ (b < mkRat 3 10 ∨ mkRat 7 10 < b))) ∧
    ((allele_balance v.fmt = some (mkRat 3 10) ∨ allele_balance v.fmt = some (mkRat 7 10)) →
      triageStep cfg v ≠ .drop .abR) ∧
    (allele_balance v.fmt = none → triageStep cfg v ≠ .drop .abR) ∧
    (∀ fmt ad r t rest, dget fmt "AD" = some ad → ad ≠ "" →
      strSplitOn ',' ad = r :: t :: rest →
      ((∀ ri ti, parseInt? r = some ri → parseInt? t = some ti →
         ((ri + ti = 0 → allele_balance fmt = none) ∧
          (ri + ti ≠ 0 → allele_balance fmt = some (round3 (Rat.divInt ti (ri + ti)))))) ∧
       ((parseInt? r = none ∨ parseInt? t = none) → allele_balance fmt = none))) := by
  have hnp : ¬ (cfg.include_nonpass = false ∧ v.filt ≠ "PASS") := by
    rcases hp with h | h <;> simp [h]
  have hcond : (Option.any (fun a => decide (cfg.max_af ≤ a)) af) = false := by
    cases af with
    | none => rfl
    | some a => simp [hafkeep a rfl]
  have hstep : triageStep cfg v = stepAb cfg v af dp := by
    simp only [triageStep, if_neg hnp, if_neg hq, stepAf, haf, stepDp, hdp]
    rw [if_neg (by simp [hcond]), if_neg hdpkeep]
  have main : triageStep cfg v = .drop .abR ↔
      (((dget v.fmt "GT").getD "" = "0/1" ∨ (dget v.fmt "GT").getD "" = "1/0") ∧
        ∃ b, allele_balance v.fmt = some b ∧ (b < mkRat 3 10 ∨ mkRat 7 10 < b)) := by
    rw [hstep]
    simp only [stepAb]
    constructor
    · intro h
      split at h
      · next hc =>
        refine ⟨hc.1, ?_⟩
        have h2 := hc.2
        cases hab : allele_balance v.fmt with
        | none => rw [hab] at h2; simp at h2
        | some b =>
          rw [hab] at h2
          simp only [Option.any_some, decide_eq_true_eq] at h2
          refine ⟨b, rfl, ?_⟩
          rcases not_and_or.mp h2 with h3 | h3
          · exact Or.inl (lt_of_not_le h3)
          · exact Or.inr (lt_of_not_le h3)
      · exact absurd (stepGene_drop_rule h) (by decide)
    · rintro ⟨hgt, b, hab, hout⟩
      rw [if_pos ?_]
      refine ⟨hgt, ?_⟩
      rw [hab]
      simp only [Option.any_some, decide_eq_true_eq]
      rcases hout with h3 | h3
      · exact fun hcc => absurd h3 (not_lt.mpr hcc.1)
      · exact fun hcc => absurd h3 (not_lt.mpr hcc.2)
  refine ⟨main, ?_, ?_, ?_⟩
  · intro hb h
    rw [main] at h
    rcases h with ⟨-, b, hab, hout⟩
    rcases hb with hb | hb <;> rw [hb] at hab <;> cases Option.some.inj hab <;>
      rcases hout with h3 | h3 <;> revert h3 <;> decide
  · intro hb h
    rw [main] at h
    rcases h with ⟨-, b, hab, -⟩
    rw [hb] at hab
    cases hab
  · intro fmt ad r t rest had hne hsplit
    constructor
    · intro ri ti hri hti
      constructor
      · intro hz
        simp [allele_balance, had, hne, hsplit, hri, hti, hz]
      · intro hz
        simp [allele_balance, had, hne, hsplit, hri, hti, hz]
    · intro hfail
      rcases hfail with h3 | h3 <;> rcases hr : parseInt? r with _ | ri <;>
        rcases ht : parseInt? t with _ | ti <;>
        simp_all [allele_balance, had, hne, hsplit]

/-- Witness for C4: a concrete heterozygous record with `AD = "1,9"`
(balance `0.9`) reaching the allele-balance rule is dropped by it. -/
theorem allele_balance_rule_witness :
    triageStep ⟨10, 30, 1, false, none⟩
      { chrom := "c", pos := 1, ref := "A", alt := ["T"], qual := some 100,
        filt := "PASS", info := [], fmt := [("GT", "0/1"), ("AD", "1,9"), ("DP", "10")] }
      = .drop .abR :=
  ((allele_balance_rule ⟨10, 30, 1, false, none⟩
    { chrom := "c", pos := 1, ref := "A", alt := ["T"], qual := some 100,
      filt := "PASS", info := [], fmt := [("GT", "0/1"), ("AD", "1,9"), ("DP", "10")] }
    (Or.inr rfl) (by decide) none (by decide) (by intro a h; cases h) 10 (by decide)
    (by decide)).1).mpr (by refine ⟨Or.inl rfl, mkRat 9 10, by decide, Or.inr (by decide)⟩)

/-! ## Claim C8: annotation extractor -/

/-- C8: `parse_ann` returns the all-empty tuple when the `ANN` key is absent;
otherwise it takes only the first comma-separated entry of the value,
splits it on `|`, and returns index 3 as gene, index 1 as consequence,
index 9 as coding change and index 10 as protein change, any out-of-range
index yielding `""` (the `getD` default); being a total function it never
raises. -/
theorem parse_ann_spec (info : List (String × String)) :
    (dget info "ANN" = none → parse_ann info = ("", "", "", "")) ∧
    (∀ s, dget info "ANN" = some s →
      parse_ann info =
        ((strSplitOn '|' ((strSplitOn ',' s).headD "")).getD 3 "",
         (strSplitOn '|' ((strSplitOn ',' s).headD "")).getD 1 "",
         (strSplitOn '|' ((strSplitOn ',' s).headD "")).getD 9 "",
         (strSplitOn '|' ((strSplitOn ',' s).headD "")).getD 10 "")) := by
  constructor
  · intro h
    simp [parse_ann, h]
  · intro s hs
    by_cases he : s = ""
    · subst he
      simp [parse_ann, hs]
      decide
    · simp [parse_ann, hs, he]

/-- Witness for C8: a concrete eleven-field annotation extracts the expected
four fields. -/
theorem parse_ann_spec_witness :
    parse_ann [("ANN", "A|miss|MOD|G1|x|y|z|a|b|c.1A|p.V2")] = ("G1", "miss", "c.1A", "p.V2") :=
  ((parse_ann_spec [("ANN", "A|miss|MOD|G1|x|y|z|a|b|c.1A|p.V2")]).2 _ rfl).trans (by decide)

/-! ## Claim C10: reader aborts on a bad position token -/

/-- C10: there is a data line with at least 8 whitespace tokens whose
position token is not a valid integer string, on which the record reader
raises (aborting the run) rather than silently skipping; the silent-skip
policy applies exactly to the lines with fewer than 8 tokens. -/
theorem reader_bad_pos_raises :
    ((wsTokens "chr1 X . A T 100 PASS DP=5").length = 8 ∧
     parseInt? "X" = none ∧
     readLine "chr1 X . A T 100 PASS DP=5" = .err ∧
     vcfRead ["chr1 X . A T 100 PASS DP=5"] = .error ()) ∧
    (∀ line, (wsTokens line).length < 8 → readLine line = .skip) := by
  constructor
  · exact ⟨by decide, by decide, by decide, by decide⟩
  · intro line h
    simp [readLine, h]

/-- Witness for C10: a concrete 7-token line is silently skipped. -/
theorem reader_bad_pos_raises_witness :
    readLine "chr1 1000 . A T 100 PASS" = .skip :=
  reader_bad_pos_raises.2 "chr1 1000 . A T 100 PASS" (by decide)

/-! ## Claim C5: row counting and the consequence counter -/

lemma lookup_dset {α : Type} (m : List (String × α)) (k : String) (a : α) :
    List.lookup k (dset m k a) = some a := by
  induction m with
  | nil => simp [dset, List.lookup]
  | cons kv rest ih =>
    obtain ⟨k', v'⟩ := kv
    by_cases h : k' = k
    · simp [dset, h, List.lookup]
    · have hne : (k == k') = false := beq_eq_false_iff_ne.mpr (Ne.symm h)
      simp [dset, if_neg h, List.lookup, hne, ih]

lemma lookup_dset_ne {α : Type} (m : List (String × α)) (k c : String) (a : α)
    (h : k ≠ c) : List.lookup c (dset m k a) = List.lookup c m := by
  have hck : (c == k) = false := beq_eq_false_iff_ne.mpr (Ne.symm h)
  induction m with
  | nil => simp [dset, List.lookup, hck]
  | cons kv rest ih =>
    obtain ⟨k', v'⟩ := kv
    by_cases hk : k' = k
    · subst hk
      simp [dset, List.lookup, hck]
    · simp only [dset, if_neg hk, List.lookup]
      cases hcc : (c == k') <;> simp [hcc, ih]

lemma dgetN_dincr (m : List (String × Nat)) (k c : String) :
    dgetN (dincr m k) c = dgetN m c + (if k = c then 1 else 0) := by
  by_cases h : k = c
  · subst h
    simp [dgetN, dincr, dget, lookup_dset]
  · simp [dgetN, dincr, dget, lookup_dset_ne _ _ _ _ h, h]

lemma byCons_fold (rows : List OutRow) :
    ∀ (m : List (String × Nat)) (c : String), c ≠ "" →
      dgetN (rows.foldl (fun m r => if r.consequence = "" then m else dincr m r.consequence) m) c
        = dgetN m c + rows.countP (fun r => r.consequence == c) := by
  induction rows with
  | nil => intro m c _; simp
  | cons r rows ih =>
    intro m c hc
    rw [List.foldl_cons, List.countP_cons]
    by_cases he : r.consequence = ""
    · have : (r.consequence == c) = false := by simp [he, Ne.symm hc]
      rw [if_pos he, this, ih m c hc]
      simp
    · rw [if_neg he, ih _ c hc, dgetN_dincr]
      by_cases hrc : r.consequence = c
      · simp [hrc]
        omega
      · have : (r.consequence == c) = false := by simp [hrc]
        simp [hrc, this]

/-- Number of output rows a record contributes: its alternate-allele count if
kept, zero otherwise. -/
def keptAltLen (cfg : Config) (v : VRec) : Nat :=
  match triageStep cfg v with
  | .keep _ => v.alt.length
  | _ => 0

lemma triageStep_keep_v {cfg : Config} {v : VRec} {k : Kept}
    (h : triageStep cfg v = .keep k) : k.v = v := by
  simp only [triageStep] at h
  split at h
  · cases h
  · split at h
    · cases h
    · simp only [stepAf] at h
      split at h
      · cases h
      · split at h
        · cases h
        · simp only [stepDp] at h
          split at h
          · cases h
          · split at h
            · cases h
            · simp only [stepAb] at h
              split at h
              · cases h
              · simp only [stepGene] at h
                split at h
                · split at h
                  · cases h
                  · cases h; rfl
                · cases h; rfl

lemma triageRows_length {cfg : Config} :
    ∀ (recs : List VRec) (rows : List OutRow), triageRows cfg recs = .ok rows →
      rows.length = (recs.map (keptAltLen cfg)).sum := by
  intro recs
  induction recs with
  | nil =>
    intro rows h
    cases h
    simp
  | cons v vs ih =>
    intro rows h
    simp only [triageRows] at h
    cases hs : triageStep cfg v with
    | err => rw [hs] at h; cases h
    | drop r =>
      rw [hs] at h
      rw [List.map_cons, List.sum_cons]
      have hk : keptAltLen cfg v = 0 := by simp [keptAltLen, hs]
      rw [hk, Nat.zero_add]
      exact ih rows h
    | keep k =>
      rw [hs] at h
      cases htl : triageRows cfg vs with
      | error e => rw [htl] at h; cases h
      | ok rest =>
        rw [htl] at h
        cases h
        rw [List.map_cons, List.sum_cons]
        have hk : keptAltLen cfg v = v.alt.length := by simp [keptAltLen, hs]
        have hv : k.v = v := triageStep_keep_v hs
        simp only [List.length_append, rowsOf, List.length_map, hv, hk]
        rw [ih rest htl]

/-- C5: under a successful run, the number of emitted data rows equals the
sum over kept records of their alternate-allele count (and the `kept`
counter agrees with it), and the per-consequence counter holds, for every
nonempty consequence term, exactly the number of emitted rows carrying
that term — one increment per row, not per record. -/
theorem row_count_and_consequence_counter (cfg : Config) (lines : List String)
    (recs : List VRec) (rows : List OutRow) (kept : Nat) (bc : List (String × Nat))
    (hr : vcfRead lines = .ok recs)
    (h : triageRun cfg lines = .ok (rows, kept, bc)) :
    rows.length = (recs.map (keptAltLen cfg)).sum ∧
    kept = rows.length ∧
    (∀ c, c ≠ "" → dgetN bc c = rows.countP (fun r => r.consequence == c)) := by
  simp only [triageRun, hr] at h
  cases htr : triageRows cfg recs with
  | error e => rw [htr] at h; cases h
  | ok rows2 =>
    rw [htr] at h
    simp only [Except.ok.injEq, Prod.mk.injEq] at h
    obtain ⟨h1, h2, h3⟩ := h
    subst h1
    refine ⟨triageRows_length recs rows2 htr, h2.symm, ?_⟩
    intro c hc
    rw [← h3]
    have := byCons_fold rows2 [] c hc
    simpa [byConsOf, dgetN, dget, List.lookup] using this

/-- Witness for C5: a concrete two-allele kept record yields two rows, and
the consequence counter records both of them. -/
theorem row_count_and_consequence_counter_witness :
    ([{ chrom := "chr1", pos := 1000, ref := "A", alt := "T", gene := "G1",
        consequence := "miss", hgvs_c := "", hgvs_p := "", af := none, gt := "0/1",
        dp := 50, ab := none, filters := "PASS" },
      { chrom := "chr1", pos := 1000, ref := "A", alt := "G", gene := "G1",
        consequence := "miss", hgvs_c := "", hgvs_p := "", af := none, gt := "0/1",
        dp := 50, ab := none, filters := "PASS" }] : List OutRow).length =
      (List.map (keptAltLen ⟨10, 30, 1, false, none⟩)
        [{ chrom := "chr1", pos := 1000, ref := "A", alt := ["T", "G"], qual := some 100,
           filt := "PASS", info := [("ANN", "A|miss|M|G1")],
           fmt := [("GT", "0/1"), ("DP", "50")] }]).sum ∧
    dgetN [("miss", 2)] "miss" =
      ([{ chrom := "chr1", pos := 1000, ref := "A", alt := "T", gene := "G1",
          consequence := "miss", hgvs_c := "", hgvs_p := "", af := none, gt := "0/1",
          dp := 50, ab := none, filters := "PASS" },
        { chrom := "chr1", pos := 1000, ref := "A", alt := "G", gene := "G1",
          consequence := "miss", hgvs_c := "", hgvs_p := "", af := none, gt := "0/1",
          dp := 50, ab := none, filters := "PASS" }] : List OutRow).countP
        (fun r => r.consequence == "miss") := by
  have h := row_count_and_consequence_counter ⟨10, 30, 1, false, none⟩
    ["chr1 1000 . A T,G 100 PASS ANN=A|miss|M|G1 GT:DP 0/1:50"]
    [{ chrom := "chr1", pos := 1000, ref := "A", alt := ["T", "G"], qual := some 100,
       filt := "PASS", info := [("ANN", "A|miss|M|G1")],
       fmt := [("GT", "0/1"), ("DP", "50")] }]
    [{ chrom := "chr1", pos := 1000, ref := "A", alt := "T", gene := "G1",
       consequence := "miss", hgvs_c := "", hgvs_p := "", af := none, gt := "0/1",
       dp := 50, ab := none, filters := "PASS" },
     { chrom := "chr1", pos := 1000, ref := "A", alt := "G", gene := "G1",
       consequence := "miss", hgvs_c := "", hgvs_p := "", af := none, gt := "0/1",
       dp := 50, ab := none, filters := "PASS" }]
    2 [("miss", 2)] (by decide) (by decide)
  exact ⟨h.1, h.2.2 "miss" (by decide)⟩

/-! ## Claim C9: summary consequence ordering -/

lemma charListLt_irrefl : ∀ x, charListLt x x = false := by
  intro x
  induction x with
  | nil => rfl
  | cons a as ih => simp [charListLt, ih]

lemma charListLt_trans : ∀ x y z, charListLt x y = true → charListLt y z = true →
    charListLt x z = true := by
  intro x
  induction x with
  | nil =>
    intro y z hxy hyz
    cases y with
    | nil => cases hxy
    | cons b bs =>
      cases z with
      | nil => cases hyz
      | cons c cs => rfl
  | cons a as ih =>
    intro y z hxy hyz
    cases y with
    | nil => cases hxy
    | cons b bs =>
      cases z with
      | nil => cases hyz
      | cons c cs =>
        simp only [charListLt] at hxy hyz ⊢
        by_cases hab : a.toNat < b.toNat
        · by_cases hbc : b.toNat < c.toNat
          · rw [if_pos (lt_trans hab hbc)]
          · by_cases hcb : c.toNat < b.toNat
            · rw [if_neg hbc, if_pos hcb] at hyz; cases hyz
            · rw [if_pos (show a.toNat < c.toNat by omega)]
        · by_cases hba : b.toNat < a.toNat
          · rw [if_neg hab, if_pos hba] at hxy; cases hxy
          · by_cases hbc : b.toNat < c.toNat
            · rw [if_pos (show a.toNat < c.toNat by omega)]
            · by_cases hcb : c.toNat < b.toNat
              · rw [if_neg hbc, if_pos hcb] at hyz; cases hyz
              · rw [if_neg hab, if_neg hba] at hxy
                rw [if_neg hbc, if_neg hcb] at hyz
                rw [if_neg (show ¬ a.toNat < c.toNat by omega),
                  if_neg (show ¬ c.toNat < a.toNat by omega)]
                exact ih bs cs hxy hyz

lemma charListLt_trichotomy : ∀ x y, charListLt x y = true ∨ x = y ∨ charListLt y x = true := by
  intro x
  induction x with
  | nil =>
    intro y
    cases y with
    | nil => exact Or.inr (Or.inl rfl)
    | cons b bs => exact Or.inl rfl
  | cons a as ih =>
    intro y
    cases y with
    | nil => exact Or.inr (Or.inr rfl)
    | cons b bs =>
      by_cases hab : a.toNat < b.toNat
      · exact Or.inl (by simp [charListLt, hab])
      · by_cases hba : b.toNat < a.toNat
        · exact Or.inr (Or.inr (by simp [charListLt, hba, show ¬ b.toNat < a.toNat → False from fun h => h hba]))
        · have heq : a = b := Char.eq_of_val_eq (UInt32.ext (show a.toNat = b.toNat by omega))
          subst heq
          rcases ih bs with h | h | h
          · exact Or.inl (by simp [charListLt, h])
          · exact Or.inr (Or.inl (by rw [h]))
          · exact Or.inr (Or.inr (by simp [charListLt, h]))

lemma strLt_trans {a b c : String} (h1 : strLt a b) (h2 : strLt b c) : strLt a c :=
  charListLt_trans a.data b.data c.data h1 h2

lemma strLt_irrefl (a : String) : ¬ strLt a a := by
  simp [strLt, charListLt_irrefl]

lemma strLt_asymm {a b : String} (h : strLt a b) : ¬ strLt b a :=
  fun h2 => strLt_irrefl a (strLt_trans h h2)

lemma strLt_trichotomy (a b : String) : strLt a b ∨ a = b ∨ strLt b a := by
  rcases charListLt_trichotomy a.data b.data with h | h | h
  · exact Or.inl h
  · refine Or.inr (Or.inl ?_)
    cases a; cases b; exact congrArg String.mk h
  · exact Or.inr (Or.inr h)

instance : IsTrans (String × Nat) consOrder := by
  constructor
  intro a b c hab hbc
  rcases hab with h1 | ⟨h1, h1s⟩
  · rcases hbc with h2 | ⟨h2, h2s⟩
    · exact Or.inl (lt_trans h2 h1)
    · exact Or.inl (h2 ▸ h1)
  · rcases hbc with h2 | ⟨h2, h2s⟩
    · exact Or.inl (h1 ▸ h2)
    · refine Or.inr ⟨h1.trans h2, fun hlt => ?_⟩
      rcases strLt_trichotomy b.1 a.1 with h3 | h3 | h3
      · exact h1s h3
      · exact h2s (h3 ▸ hlt)
      · exact h2s (strLt_trans hlt h3)

instance : IsTotal (String × Nat) consOrder := by
  constructor
  intro a b
  rcases lt_trichotomy b.2 a.2 with h | h | h
  · exact Or.inl (Or.inl h)
  · rcases strLt_trichotomy a.1 b.1 with hs | hs | hs
    · exact Or.inl (Or.inr ⟨h.symm, strLt_asymm hs⟩)
    · exact Or.inl (Or.inr ⟨h.symm, hs ▸ strLt_irrefl a.1⟩)
    · exact Or.inr (Or.inr ⟨h, strLt_asymm hs⟩)
  · exact Or.inr (Or.inl h)

/-- C9: the summary's consequence block has one line per counter entry (the
sorted list is a permutation of the counter, and distinct terms stay
distinct), the lines appear sorted by descending count with ties broken by
ascending lexicographic term, and each line is rendered as two spaces, the
term, colon-space, and the count. -/
theorem summary_consequence_order (items : List (String × Nat)) :
    (summarySort items).Perm items ∧
    List.Pairwise (fun a b : String × Nat =>
      b.2 < a.2 ∨ (a.2 = b.2 ∧ (a.1 = b.1 ∨ strLt a.1 b.1))) (summarySort items) ∧
    summaryConsLines items =
      (summarySort items).map (fun kv => "  " ++ kv.1 ++ ": " ++ natToDecString kv.2) ∧
    ((items.map Prod.fst).Nodup → ((summarySort items).map Prod.fst).Nodup) := by
  refine ⟨List.perm_insertionSort _ _, ?_, rfl, ?_⟩
  · have hs : List.Sorted consOrder (summarySort items) :=
      List.sorted_insertionSort consOrder items
    refine hs.imp (fun h => h.imp id (fun h2 => ⟨h2.1, ?_⟩))
    rcases strLt_trichotomy _ _ with h3 | h3 | h3
    · exact Or.inr h3
    · exact Or.inl h3
    · exact absurd h3 h2.2
  · intro h
    exact (((List.perm_insertionSort consOrder items).map Prod.fst).nodup_iff).mpr h

/-- Witness for C9: a concrete counter with a tie is rendered in descending
count order, tie broken alphabetically. -/
theorem summary_consequence_order_witness :
    summaryConsLines [("b", 2), ("a", 2), ("c", 5)] = ["  c: 5", "  a: 2", "  b: 2"] ∧
    ((summarySort [("b", 2), ("a", 2), ("c", 5)]).map Prod.fst).Nodup := by
  have h := summary_consequence_order [("b", 2), ("a", 2), ("c", 5)]
  refine ⟨?_, h.2.2.2 (by decide)⟩
  rw [h.2.2.1]
  decide

/-! ## Line recognition lemmas for the generated script -/

lemma lineIsGoto_goto (x : String) : lineIsGoto ("goto " ++ x) = true := by
  simp [lineIsGoto, String.data_append]

lemma lineIsGoto_new : lineIsGoto "new" = false := by decide

lemma lineIsGoto_genome (x : String) : lineIsGoto ("genome " ++ x) = false := by
  simp [lineIsGoto, String.data_append]

lemma lineIsGoto_load (x : String) : lineIsGoto ("load " ++ x) = false := by
  simp [lineIsGoto, String.data_append]

lemma lineIsGoto_snapdir (x : String) : lineIsGoto ("snapshotDirectory " ++ x) = false := by
  simp [lineIsGoto, String.data_append]

lemma lineIsGoto_snapshot (x : String) : lineIsGoto ("snapshot " ++ x) = false := by
  simp [lineIsGoto, String.data_append]

lemma lineIsLoad_load (x : String) : lineIsLoad ("load " ++ x) = true := by
  simp [lineIsLoad, String.data_append]

lemma lineIsLoad_new : lineIsLoad "new" = false := by decide

lemma lineIsLoad_genome (x : String) : lineIsLoad ("genome " ++ x) = false := by
  simp [lineIsLoad, String.data_append]

lemma lineIsLoad_goto (x : String) : lineIsLoad ("goto " ++ x) = false := by
  simp [lineIsLoad, String.data_append]

lemma lineIsLoad_snapdir (x : String) : lineIsLoad ("snapshotDirectory " ++ x) = false := by
  simp [lineIsLoad, String.data_append]

lemma lineIsLoad_snapshot (x : String) : lineIsLoad ("snapshot " ++ x) = false := by
  simp [lineIsLoad, String.data_append]

/-! ## Claim C7: navigation interval -/

/-- C7: for every usable input row (nonempty chromosome, all-digit position
string) with position `P` and configured flank `F`, the loop body emits
exactly one navigation command, and it targets exactly the interval
`max(1, P-F)` to `P+F`. -/
theorem goto_interval_exact (cfg : IgvCfg) (r : RowD)
    (hc : igvRowChrom r ≠ "") (hd : pyIsdigit (igvRowPosStr r) = true) :
    ((igvRowLines cfg r).1.filter (fun l => lineIsGoto l)) =
      ["goto " ++ (igvRowChrom r ++ ":" ++
        intToDecString (max 1 ((digitsToNat (igvRowPosStr r).data : Int) - cfg.flank)) ++ "-" ++
        intToDecString ((digitsToNat (igvRowPosStr r).data : Int) + cfg.flank))] ∧
    (igvRowLines cfg r).2 = 1 := by
  have hne : ¬ (igvRowChrom r = "" ∨ ¬ pyIsdigit (igvRowPosStr r) = true) := by
    push_neg
    exact ⟨hc, hd⟩
  constructor
  · simp only [igvRowLines, if_neg hne]
    rcases hb : cfg.bam_col with _ | col <;> rcases hs : cfg.snapshot_dir with _ | d <;>
        simp only [hb, hs, List.filter_append, List.filter_cons, List.filter_nil,
          lineIsGoto_goto, lineIsGoto_load, lineIsGoto_snapshot, if_true] <;>
      try rfl
    all_goals
      split <;>
        simp [List.filter, lineIsGoto_load, lineIsGoto_snapshot, lineIsGoto_goto]
  · simp only [igvRowLines, if_neg hne]

/-- Witness for C7: a row at position 1000 with flank 50 yields exactly the
command `goto chr1:950-1050`. -/
theorem goto_interval_exact_witness :
    ((igvRowLines ⟨"GRCh38", none, none, 50, none, none⟩
        [("chrom", "chr1"), ("pos", "1000")]).1.filter (fun l => lineIsGoto l)) =
      ["goto chr1:950-1050"] :=
  ((goto_interval_exact ⟨"GRCh38", none, none, 50, none, none⟩
    [("chrom", "chr1"), ("pos", "1000")] (by decide) (by decide)).1).trans (by decide)

/-! ## Claim C2: single-alignment load command -/

/-- Counterexample to C2 as stated: on a table with zero data rows the
function returns early, so the script contains no load command at all even
though a single alignment file is configured. -/
theorem single_bam_load_counterexample :
    (make_igv_batch ⟨"GRCh38", some "s.bam", none, 100, none, none⟩ []).1 =
      ["new", "genome GRCh38"] ∧
    (make_igv_batch ⟨"GRCh38", some "s.bam", none, 100, none, none⟩ []).1.countP
      (fun l => lineIsLoad l) = 0 := ⟨by decide, by decide⟩

lemma igvRowLines_no_load (cfg : IgvCfg) (r : RowD) (h : cfg.bam_col = none) :
    (igvRowLines cfg r).1.countP (fun l => lineIsLoad l) = 0 := by
  simp only [igvRowLines]
  split
  · rfl
  · rcases hs : cfg.snapshot_dir with _ | d <;>
      simp [h, hs, List.countP_append, List.countP_cons, lineIsLoad_goto, lineIsLoad_snapshot]

/-- C2 (amended): on every table with at least one row, when a single
alignment file is configured (and no per-row alignment column), the script
starts with the session-reset command, the genome-selection command, and
then exactly one load command, and no other load command occurs anywhere —
in particular the load precedes every navigation command; on a zero-row
table the script is still written, but it consists of the session-reset
and genome lines only, without the load command. -/
theorem single_bam_load_amended (g b : String) (flank : Int) (sd sp : Option String)
    (rows : List RowD) (hrows : rows ≠ []) (hb : b ≠ "") :
    (make_igv_batch ⟨g, some b, none, flank, sd, sp⟩ rows).1.take 3 =
      ["new", "genome " ++ g, "load " ++ b] ∧
    ((make_igv_batch ⟨g, some b, none, flank, sd, sp⟩ rows).1.drop 3).countP
      (fun l => lineIsLoad l) = 0 ∧
    (make_igv_batch ⟨g, some b, none, flank, sd, sp⟩ rows).1.countP
      (fun l => lineIsLoad l) = 1 ∧
    (make_igv_batch ⟨g, some b, none, flank, sd, sp⟩ []).1 = ["new", "genome " ++ g] := by
  have hbody : ∀ r ∈ rows,
      (igvRowLines ⟨g, some b, none, flank, sd, sp⟩ r).1.countP (fun l => lineIsLoad l) = 0 :=
    fun r _ => igvRowLines_no_load _ r rfl
  have hflat : ((rows.map (fun r => (igvRowLines ⟨g, some b, none, flank, sd, sp⟩ r).1)).flatten).countP
      (fun l => lineIsLoad l) = 0 := by
    rw [List.countP_flatten]
    apply List.sum_eq_zero
    intro n hn
    simp only [List.map_map, List.mem_map] at hn
    obtain ⟨r, hr, hn2⟩ := hn
    rw [← hn2]
    exact hbody r hr
  have hsd : (match sd with
      | some d => if d = "" then ([] : List String) else ["snapshotDirectory " ++ d]
      | none => []).countP (fun l => lineIsLoad l) = 0 := by
    rcases sd with _ | d
    · rfl
    · by_cases hd : d = "" <;> simp [hd, lineIsLoad_snapdir]
  simp only [make_igv_batch, if_neg hrows, if_neg hb]
  refine ⟨?_, ?_, ?_, ?_⟩
  · simp [List.append_assoc]
  · simp only [List.append_assoc, List.cons_append, List.nil_append, List.drop_succ_cons,
      List.drop_zero, List.countP_append, hsd, hflat]
  · simp only [List.append_assoc, List.cons_append, List.nil_append, List.countP_cons,
      List.countP_append, hsd, hflat, lineIsLoad_new, lineIsLoad_genome, lineIsLoad_load,
      List.countP_nil]
    decide
  · rfl

/-- Witness for the amended C2: a one-row table with a configured alignment
file produces a script with exactly one load command. -/
theorem single_bam_load_amended_witness :
    (make_igv_batch ⟨"GRCh38", some "s.bam", none, 100, none, none⟩
      [[("chrom", "c"), ("pos", "5")]]).1.countP (fun l => lineIsLoad l) = 1 :=
  (single_bam_load_amended "GRCh38" "s.bam" 100 none none
    [[("chrom", "c"), ("pos", "5")]] (by decide) (by decide)).2.2.1

/-! ## Claim C3: round trip from the Report Writer to the batch generator -/

lemma tokenizeAux_mem : ∀ (cs acc : List Char) (t : List Char),
    (∀ c ∈ acc, c.isWhitespace = false) → t ∈ tokenizeAux cs acc →
    t ≠ [] ∧ ∀ c ∈ t, c.isWhitespace = false := by
  intro cs
  induction cs with
  | nil =>
    intro acc t hacc ht
    simp only [tokenizeAux] at ht
    split at ht
    · cases ht
    · next hne =>
      rw [List.mem_singleton] at ht
      subst ht
      refine ⟨by simpa using hne, fun c hc => hacc c (List.mem_reverse.mp hc)⟩
  | cons c0 cs ih =>
    intro acc t hacc ht
    simp only [tokenizeAux] at ht
    split at ht
    · split at ht
      · exact ih [] t (by simp) ht
      · next hne =>
        rcases List.mem_cons.mp ht with h | h
        · subst h
          exact ⟨by simpa using hne, fun c hc => hacc c (List.mem_reverse.mp hc)⟩
        · exact ih [] t (by simp) h
    · next hcw =>
      refine ih (c0 :: acc) t ?_ ht
      intro c hc
      rcases List.mem_cons.mp hc with h | h
      · subst h
        simpa using hcw
      · exact hacc c h

lemma wsTokens_prop (s t : String) (ht : t ∈ wsTokens s) :
    t ≠ "" ∧ ∀ c ∈ t.data, c.isWhitespace = false := by
  simp only [wsTokens, List.mem_map] at ht
  obtain ⟨ts, hts, rfl⟩ := ht
  have hp := tokenizeAux_mem s.data [] ts (by simp) hts
  refine ⟨fun h => hp.1 (congrArg String.data h), fun c hc => hp.2 c hc⟩

lemma getD_zero_mem (l : List String) (d : String) (h : l ≠ []) : l.getD 0 d ∈ l := by
  cases l with
  | nil => exact absurd rfl h
  | cons a as => simp [List.getD]

lemma digitChar_isDigit {d : Nat} (h : d < 10) : (digitChar d).isDigit = true := by
  interval_cases d <;> decide

lemma natDigitsAux_digits : ∀ (fuel n : Nat), ∀ c ∈ natDigitsAux fuel n, c.isDigit = true := by
  intro fuel
  induction fuel with
  | zero => intro n c hc; cases hc
  | succ fuel ih =>
    intro n c hc
    simp only [natDigitsAux] at hc
    split at hc
    · next h =>
      rw [List.mem_singleton] at hc
      subst hc
      exact digitChar_isDigit h
    · rcases List.mem_append.mp hc with h1 | h1
      · exact ih _ c h1
      · rw [List.mem_singleton] at h1
        subst h1
        exact digitChar_isDigit (Nat.mod_lt _ (by omega))

lemma natDigits_digits (n : Nat) : ∀ c ∈ natDigits n, c.isDigit = true :=
  natDigitsAux_digits (n + 1) n

lemma natDigits_ne_nil (n : Nat) : natDigits n ≠ [] := by
  simp only [natDigits, natDigitsAux]
  split <;> simp

lemma isDigit_not_ws {c : Char} (h : c.isDigit = true) : c.isWhitespace = false := by
  cases hw : c.isWhitespace
  · rfl
  · exfalso
    have hw2 : ((c = ' ' ∨ c = '\t') ∨ c = '\r') ∨ c = '\n' := by
      simpa [Char.isWhitespace] using hw
    rcases hw2 with ((rfl | rfl) | rfl) | rfl <;> exact absurd h (by decide)

lemma intToDecString_ne_empty (p : Int) : intToDecString p ≠ "" := by
  simp only [intToDecString]
  split <;> intro h <;> have h2 := congrArg String.data h
  · cases h2
  · exact natDigits_ne_nil _ h2

lemma intToDecString_not_ws (p : Int) : ∀ c ∈ (intToDecString p).data, c.isWhitespace = false := by
  simp only [intToDecString]
  split <;> intro c hc
  · rcases List.mem_cons.mp hc with rfl | h1
    · decide
    · exact isDigit_not_ws (natDigits_digits _ c h1)
  · exact isDigit_not_ws (natDigits_digits _ c hc)

lemma pyIsdigit_intToDecString (p : Int) : pyIsdigit (intToDecString p) = decide (0 ≤ p) := by
  simp only [intToDecString, pyIsdigit]
  split
  · next hneg =>
    have hd : decide (0 ≤ p) = false := by
      simp only [decide_eq_false_iff_not]
      omega
    rw [hd]
    simp [show ('-').isDigit = false by decide]
  · next hpos =>
    have hd : decide (0 ≤ p) = true := by
      simp only [decide_eq_true_eq]
      omega
    rw [hd, Bool.and_eq_true]
    constructor
    · simpa using natDigits_ne_nil p.toNat
    · rw [List.all_eq_true]
      intro c hc
      exact natDigits_digits _ c hc

lemma dropWhile_all_false {p : Char → Bool} :
    ∀ (l : List Char), (∀ c ∈ l, p c = false) → l.dropWhile p = l := by
  intro l h
  cases l with
  | nil => rfl
  | cons a as =>
    rw [List.dropWhile_cons, h a (by simp)]
    simp

lemma pyStrip_eq_self {s : String} (h : ∀ c ∈ s.data, c.isWhitespace = false) :
    pyStrip s = s := by
  simp only [pyStrip]
  rw [dropWhile_all_false _ h,
    dropWhile_all_false _ (fun c hc => h c (List.mem_reverse.mp hc)),
    List.reverse_reverse]

lemma readLine_record {line : String} {v : VRec} (h : readLine line = .record v) :
    v.chrom = (wsTokens line).getD 0 "" ∧ 8 ≤ (wsTokens line).length := by
  simp only [readLine] at h
  split at h
  · cases h
  · split at h
    · cases h
    · split at h
      · cases h
      · split at h
        · cases h
        · next hlen =>
          split at h
          · cases h
          · split at h
            · cases h
            · cases h
              exact ⟨rfl, by omega⟩

lemma vcfRead_chrom : ∀ (lines : List String) (recs : List VRec),
    vcfRead lines = .ok recs →
    ∀ v ∈ recs, v.chrom ≠ "" ∧ ∀ c ∈ v.chrom.data, c.isWhitespace = false := by
  intro lines
  induction lines with
  | nil =>
    intro recs h v hv
    cases h
    cases hv
  | cons l ls ih =>
    intro recs h v hv
    simp only [vcfRead] at h
    split at h
    · exact ih recs h v hv
    · cases h
    · next w hw =>
      cases hrest : vcfRead ls with
      | error e =>
        rw [hrest] at h
        cases h
      | ok rest =>
        rw [hrest] at h
        simp only [Except.map] at h
        cases h
        rcases List.mem_cons.mp hv with h1 | h1
        · subst h1
          have hcp := readLine_record hw
          have hmem : v.chrom ∈ wsTokens l := by
            rw [hcp.1]
            apply getD_zero_mem
            intro hnil
            rw [hnil] at hcp
            simp at hcp
          exact wsTokens_prop l v.chrom hmem
        · exact ih rest hrest v h1

lemma triageRows_mem {cfg : Config} : ∀ (recs : List VRec) (rows : List OutRow),
    triageRows cfg recs = .ok rows →
    ∀ r ∈ rows, ∃ v ∈ recs, r.chrom = v.chrom ∧ r.pos = v.pos := by
  intro recs
  induction recs with
  | nil =>
    intro rows h r hr
    cases h
    cases hr
  | cons v vs ih =>
    intro rows h r hr
    simp only [triageRows] at h
    cases hs : triageStep cfg v with
    | err =>
      rw [hs] at h
      cases h
    | drop ru =>
      rw [hs] at h
      obtain ⟨w, hw, hcp⟩ := ih rows h r hr
      exact ⟨w, List.mem_cons_of_mem v hw, hcp⟩
    | keep k =>
      rw [hs] at h
      cases htl : triageRows cfg vs with
      | error e =>
        rw [htl] at h
        cases h
      | ok rest =>
        rw [htl] at h
        simp only [Except.map] at h
        cases h
        rcases List.mem_append.mp hr with h1 | h1
        · simp only [rowsOf, List.mem_map] at h1
          obtain ⟨a, ha, hra⟩ := h1
          have hv : k.v = v := triageStep_keep_v hs
          refine ⟨v, List.mem_cons_self v vs, ?_, ?_⟩
          · rw [← hra]
            simp [hv]
          · rw [← hra]
            simp [hv]
        · obtain ⟨w, hw, hcp⟩ := ih rest htl r h1
          exact ⟨w, List.mem_cons_of_mem v hw, hcp⟩

lemma dget_outRowDict_chrom (r : OutRow) : dget (outRowDict r) "chrom" = some r.chrom := rfl

lemma dget_outRowDict_pos (r : OutRow) :
    dget (outRowDict r) "pos" = some (intToDecString r.pos) := rfl

lemma igvRowChrom_outRowDict (r : OutRow) (hne : r.chrom ≠ "")
    (hws : ∀ c ∈ r.chrom.data, c.isWhitespace = false) :
    igvRowChrom (outRowDict r) = r.chrom := by
  simp only [igvRowChrom, dget_outRowDict_chrom, pyOrStr, if_neg hne]
  exact pyStrip_eq_self hws

lemma igvRowPosStr_outRowDict (r : OutRow) :
    igvRowPosStr (outRowDict r) = intToDecString r.pos := by
  simp only [igvRowPosStr, dget_outRowDict_pos, pyOrStr,
    if_neg (intToDecString_ne_empty r.pos)]
  exact pyStrip_eq_self (intToDecString_not_ws r.pos)

lemma igvRowLines_goto_count (cfg : IgvCfg) (d : RowD) :
    (igvRowLines cfg d).1.countP (fun l => lineIsGoto l) =
      if igvRowChrom d = "" ∨ ¬ pyIsdigit (igvRowPosStr d) = true then 0 else 1 := by
  simp only [igvRowLines]
  split
  · rfl
  · rcases hb : cfg.bam_col with _ | col <;> rcases hs : cfg.snapshot_dir with _ | dd <;>
        simp only [hb, hs, List.countP_append, List.countP_cons, List.countP_nil,
          lineIsGoto_goto, lineIsGoto_load, lineIsGoto_snapshot] <;>
      try rfl
    all_goals
      split
      all_goals
        simp [List.countP_cons, List.countP_append, lineIsGoto_load, lineIsGoto_goto,
          lineIsGoto_snapshot]

lemma make_goto_count (cfg : IgvCfg) (rows : List RowD) :
    (make_igv_batch cfg rows).1.countP (fun l => lineIsGoto l) =
      (rows.map (fun d => (igvRowLines cfg d).1.countP (fun l => lineIsGoto l))).sum := by
  simp only [make_igv_batch]
  split
  · next hnil =>
    subst hnil
    simp [List.countP_cons, lineIsGoto_new, lineIsGoto_genome]
  · simp only [List.countP_append, List.countP_flatten, List.map_map]
    have hheader : (["new", "genome " ++ cfg.genome] : List String).countP
        (fun l => lineIsGoto l) = 0 := by
      simp [List.countP_cons, lineIsGoto_new, lineIsGoto_genome]
    have hbam : (match cfg.bam with
        | some b => if b = "" then ([] : List String) else ["load " ++ b]
        | none => []).countP (fun l => lineIsGoto l) = 0 := by
      rcases cfg.bam with _ | b
      · rfl
      · by_cases hb : b = "" <;> simp [hb, lineIsGoto_load]
    have hsd : (match cfg.snapshot_dir with
        | some d => if d = "" then ([] : List String) else ["snapshotDirectory " ++ d]
        | none => []).countP (fun l => lineIsGoto l) = 0 := by
      rcases cfg.snapshot_dir with _ | d
      · rfl
      · by_cases hd : d = "" <;> simp [hd, lineIsGoto_snapdir]
    rw [hheader, hbam, hsd]
    simp only [Nat.zero_add]
    rfl

lemma countP_eq_sum_map {α : Type} (p : α → Bool) (l : List α) :
    (l.map (fun a => if p a then 1 else 0)).sum = l.countP p := by
  induction l with
  | nil => rfl
  | cons a as ih =>
    by_cases h : p a <;> simp [List.countP_cons, h, ih] <;> omega

/-- C3 (amended): feeding the Report Writer's output table to the batch
generator yields exactly one navigation command per row whose position is
nonnegative; such positions render as all-digit strings, and the
generator's chromosome lookup never fails because every written chromosome
token is nonempty and whitespace-free.  (As the counterexample shows, a
pathological record with a negative position is written by the Report
Writer but silently skipped by the generator, so the claim's unconditional
form is false.) -/
theorem roundtrip_amended (cfg : Config) (lines : List String) (recs : List VRec)
    (rows : List OutRow) (kept : Nat) (bc : List (String × Nat)) (icfg : IgvCfg)
    (hv : vcfRead lines = .ok recs)
    (h : triageRun cfg lines = .ok (rows, kept, bc)) :
    (make_igv_batch icfg (rows.map outRowDict)).1.countP (fun l => lineIsGoto l) =
      rows.countP (fun r => decide (0 ≤ r.pos)) := by
  simp only [triageRun, hv] at h
  cases htr : triageRows cfg recs with
  | error e => rw [htr] at h; cases h
  | ok rows2 =>
    rw [htr] at h
    simp only [Except.ok.injEq, Prod.mk.injEq] at h
    obtain ⟨h1, h2, h3⟩ := h
    subst h1
    have hrowprop : ∀ r ∈ rows2, r.chrom ≠ "" ∧ ∀ c ∈ r.chrom.data, c.isWhitespace = false := by
      intro r hr
      obtain ⟨v, hvmem, hc, hp⟩ := triageRows_mem recs rows2 htr r hr
      rw [hc]
      exact vcfRead_chrom lines recs hv v hvmem
    rw [make_goto_count, List.map_map]
    have hrow : ∀ r ∈ rows2,
        ((fun d => (igvRowLines icfg d).1.countP (fun l => lineIsGoto l)) ∘ outRowDict) r =
          if decide (0 ≤ r.pos) then 1 else 0 := by
      intro r hr
      obtain ⟨hne, hws⟩ := hrowprop r hr
      simp only [Function.comp]
      rw [igvRowLines_goto_count, igvRowChrom_outRowDict r hne hws,
        igvRowPosStr_outRowDict r, pyIsdigit_intToDecString]
      by_cases hp : (0 : Int) ≤ r.pos
      · rw [if_neg, if_pos (by simpa using hp)]
        push_neg
        exact ⟨hne, by simpa using hp⟩
      · rw [if_pos, if_neg (by simpa using hp)]
        right
        simpa using hp
    rw [List.map_congr_left hrow]
    exact countP_eq_sum_map _ rows2

/-- The output row of the negative-position counterexample record. -/
def negPosRow : OutRow :=
  { chrom := "chr1", pos := -5, ref := "A", alt := "T", gene := "",
    consequence := "", hgvs_c := "", hgvs_p := "", af := none, gt := "0/1",
    dp := 50, ab := none, filters := "PASS" }

/-- Counterexample to C3 as stated: a record with position `-5` passes every
filter, is written to the output table with chromosome and position values
present, yet the batch generator emits no navigation command for it
(`"-5".isdigit()` is false, so the row is skipped as malformed). -/
theorem roundtrip_counterexample :
    triageRun ⟨10, 30, 1, false, none⟩ ["chr1 -5 . A T 100 PASS DP=1 GT:DP 0/1:50"] =
      .ok ([negPosRow], 1, []) ∧
    dget (outRowDict negPosRow) "chrom" = some "chr1" ∧
    dget (outRowDict negPosRow) "pos" = some "-5" ∧
    (make_igv_batch ⟨"GRCh38", some "s.bam", none, 100, none, none⟩
      [outRowDict negPosRow]).1.countP (fun l => lineIsGoto l) = 0 := by
  refine ⟨by decide, by decide, by decide, by decide⟩

/-- Witness for the amended C3: a kept record at position 1000 round-trips
into exactly one navigation command. -/
theorem roundtrip_amended_witness :
    (make_igv_batch ⟨"GRCh38", some "s.bam", none, 100, none, none⟩
      ([({ chrom := "chr1", pos := 1000, ref := "A", alt := "T", gene := "",
           consequence := "", hgvs_c := "", hgvs_p := "", af := none, gt := "0/1",
           dp := 50, ab := none, filters := "PASS" } : OutRow)].map outRowDict)).1.countP
      (fun l => lineIsGoto l) = 1 := by
  have h := roundtrip_amended ⟨10, 30, 1, false, none⟩
    ["chr1 1000 . A T 100 PASS DP=1 GT:DP 0/1:50"]
    [{ chrom := "chr1", pos := 1000, ref := "A", alt := ["T"], qual := some 100,
       filt := "PASS", info := [("DP", "1")], fmt := [("GT", "0/1"), ("DP", "50")] }]
    [{ chrom := "chr1", pos := 1000, ref := "A", alt := "T", gene := "",
       consequence := "", hgvs_c := "", hgvs_p := "", af := none, gt := "0/1",
       dp := 50, ab := none, filters := "PASS" }] 1 []
    ⟨"GRCh38", some "s.bam", none, 100, none, none⟩ (by decide) (by decide)
  rw [h]
  decide
